import Mathlib

/-
  Verification of the "bladeball" client script against its natural-language
  specification.  The repository has two generations of the script:
  `part_000` (sphere solver, multi-ball registry, trigger when the predicted
  time is at or below the compensation threshold) and `part_001` (cylinder
  solver, single active ball, trigger when the predicted time is at or above
  the threshold), plus a diagnostic remote-event logger (out of scope) and a
  type declaration file.

  Numeric code is embedded over the real numbers (the source uses Lua
  doubles); `math.sqrt` becomes `Real.sqrt`.  Note that in this embedding
  division by zero yields 0.  Stateful lifecycle code is embedded as explicit
  state machines with step functions.
-/

/-! ## Generation-1 constants (`part_000`, lines 12-13) -/

/-- `const RADIUS = 17.5` (generation 1). -/
noncomputable def RADIUS1 : ℝ := 17.5

/-- `const COMPENSATION = 200 / 1000` (both generations). -/
noncomputable def COMPENSATION : ℝ := 200 / 1000

/-! ## Sphere interception solver (`part_000`, `evaluateIntercept`, lines 96-122)

The source computes `a = vx² + vy² + vz²`, `b = 2(vx·x + vy·y + vz·z)`,
`c = x² + y² + z² - R²`, the discriminant `b² - 4ac`, and the two quadratic
roots `t0 = (-b - √disc)/(2a)` and `t1 = (-b + √disc)/(2a)`, returning `t0`
if positive, else `t1` if positive, else nothing; a negative discriminant
returns nothing immediately. -/

/-- `a = vx ** 2 + vy ** 2 + vz ** 2`. -/
noncomputable def sphA (vx vy vz : ℝ) : ℝ := vx ^ 2 + vy ^ 2 + vz ^ 2

/-- `b = 2 * (vx * x + vy * y + vz * z)`. -/
noncomputable def sphB (x y z vx vy vz : ℝ) : ℝ := 2 * (vx * x + vy * y + vz * z)

/-- `c = x ** 2 + y ** 2 + z ** 2 - R ** 2`. -/
noncomputable def sphC (x y z R : ℝ) : ℝ := x ^ 2 + y ^ 2 + z ^ 2 - R ^ 2

/-- `discriminant = b ** 2 - 4 * a * c`. -/
noncomputable def sphDisc (x y z vx vy vz R : ℝ) : ℝ :=
  sphB x y z vx vy vz ^ 2 - 4 * sphA vx vy vz * sphC x y z R

/-- `t0 = (-b - sqrtDiscriminant) / denominator` with `denominator = 2 * a`. -/
noncomputable def sphT0 (x y z vx vy vz R : ℝ) : ℝ :=
  (-sphB x y z vx vy vz - Real.sqrt (sphDisc x y z vx vy vz R)) / (2 * sphA vx vy vz)

/-- `t1 = (-b + sqrtDiscriminant) / denominator`. -/
noncomputable def sphT1 (x y z vx vy vz R : ℝ) : ℝ :=
  (-sphB x y z vx vy vz + Real.sqrt (sphDisc x y z vx vy vz R)) / (2 * sphA vx vy vz)

/-- `evaluateIntercept` (`part_000` lines 96-122): reject a negative
discriminant, then return `t0` if strictly positive, else `t1` if strictly
positive, else `undefined`. -/
noncomputable def evaluateIntercept (x y z vx vy vz R : ℝ) : Option ℝ :=
  if sphDisc x y z vx vy vz R < 0 then none
  else if 0 < sphT0 x y z vx vy vz R then some (sphT0 x y z vx vy vz R)
  else if 0 < sphT1 x y z vx vy vz R then some (sphT1 x y z vx vy vz R)
  else none

/-- The root `(-b - s)/(2a)` of `a·t² + b·t + c` when `s² = b² - 4ac`. -/
lemma quadRootNeg (a b c s : ℝ) (ha : a ≠ 0) (hs : s ^ 2 = b ^ 2 - 4 * a * c) :
    a * ((-b - s) / (2 * a)) ^ 2 + b * ((-b - s) / (2 * a)) + c = 0 := by
  have h2 : (2 * a) ≠ 0 := mul_ne_zero two_ne_zero ha
  field_simp
  linear_combination 2 * a ^ 2 * hs

/-- The root `(-b + s)/(2a)` of `a·t² + b·t + c` when `s² = b² - 4ac`. -/
lemma quadRootPos (a b c s : ℝ) (ha : a ≠ 0) (hs : s ^ 2 = b ^ 2 - 4 * a * c) :
    a * ((-b + s) / (2 * a)) ^ 2 + b * ((-b + s) / (2 * a)) + c = 0 := by
  have h2 : (2 * a) ≠ 0 := mul_ne_zero two_ne_zero ha
  field_simp
  linear_combination 2 * a ^ 2 * hs

lemma sphA_pos (vx vy vz : ℝ) (hv : vx ≠ 0 ∨ vy ≠ 0 ∨ vz ≠ 0) :
    0 < sphA vx vy vz := by
  have hx := sq_nonneg vx
  have hy := sq_nonneg vy
  have hz := sq_nonneg vz
  rcases hv with h | h | h
  · have : 0 < vx ^ 2 := lt_of_le_of_ne hx (Ne.symm (pow_ne_zero 2 h))
    simp only [sphA]; linarith
  · have : 0 < vy ^ 2 := lt_of_le_of_ne hy (Ne.symm (pow_ne_zero 2 h))
    simp only [sphA]; linarith
  · have : 0 < vz ^ 2 := lt_of_le_of_ne hz (Ne.symm (pow_ne_zero 2 h))
    simp only [sphA]; linarith

/-- The point at time `sphT0` lies on the sphere of radius `R`. -/
lemma sphT0_onSphere (x y z vx vy vz R : ℝ) (ha : sphA vx vy vz ≠ 0)
    (h : 0 ≤ sphDisc x y z vx vy vz R) :
    (x + vx * sphT0 x y z vx vy vz R) ^ 2 + (y + vy * sphT0 x y z vx vy vz R) ^ 2 +
      (z + vz * sphT0 x y z vx vy vz R) ^ 2 = R ^ 2 := by
  have hs : Real.sqrt (sphDisc x y z vx vy vz R) ^ 2 = sphDisc x y z vx vy vz R :=
    Real.sq_sqrt h
  have h0 := quadRootNeg (sphA vx vy vz) (sphB x y z vx vy vz) (sphC x y z R)
    (Real.sqrt (sphDisc x y z vx vy vz R)) ha (hs.trans (by rw [sphDisc]))
  simp only [sphT0]
  simp only [sphA, sphB, sphC] at h0 ⊢
  linear_combination h0

/-- The point at time `sphT1` lies on the sphere of radius `R`. -/
lemma sphT1_onSphere (x y z vx vy vz R : ℝ) (ha : sphA vx vy vz ≠ 0)
    (h : 0 ≤ sphDisc x y z vx vy vz R) :
    (x + vx * sphT1 x y z vx vy vz R) ^ 2 + (y + vy * sphT1 x y z vx vy vz R) ^ 2 +
      (z + vz * sphT1 x y z vx vy vz R) ^ 2 = R ^ 2 := by
  have hs : Real.sqrt (sphDisc x y z vx vy vz R) ^ 2 = sphDisc x y z vx vy vz R :=
    Real.sq_sqrt h
  have h0 := quadRootPos (sphA vx vy vz) (sphB x y z vx vy vz) (sphC x y z R)
    (Real.sqrt (sphDisc x y z vx vy vz R)) ha (hs.trans (by rw [sphDisc]))
  simp only [sphT1]
  simp only [sphA, sphB, sphC] at h0 ⊢
  linear_combination h0

/-- Claim C1: for every input with nonzero relative velocity, the sphere
solver `evaluateIntercept` returns the smaller root `t0` of the quadratic
`|p + v·t|² = R²` when `t0` is strictly positive; otherwise the larger root
`t1` when `t1` is strictly positive; otherwise no result, which in particular
covers every input whose discriminant is negative. -/
theorem claimC1_sphere_root_selection (x y z vx vy vz R : ℝ)
    (hv : vx ≠ 0 ∨ vy ≠ 0 ∨ vz ≠ 0) :
    (sphDisc x y z vx vy vz R < 0 → evaluateIntercept x y z vx vy vz R = none) ∧
    (0 ≤ sphDisc x y z vx vy vz R →
      sphT0 x y z vx vy vz R ≤ sphT1 x y z vx vy vz R ∧
      (x + vx * sphT0 x y z vx vy vz R) ^ 2 + (y + vy * sphT0 x y z vx vy vz R) ^ 2 +
        (z + vz * sphT0 x y z vx vy vz R) ^ 2 = R ^ 2 ∧
      (x + vx * sphT1 x y z vx vy vz R) ^ 2 + (y + vy * sphT1 x y z vx vy vz R) ^ 2 +
        (z + vz * sphT1 x y z vx vy vz R) ^ 2 = R ^ 2 ∧
      evaluateIntercept x y z vx vy vz R =
        (if 0 < sphT0 x y z vx vy vz R then some (sphT0 x y z vx vy vz R)
         else if 0 < sphT1 x y z vx vy vz R then some (sphT1 x y z vx vy vz R)
         else none)) := by
  have ha : 0 < sphA vx vy vz := sphA_pos vx vy vz hv
  constructor
  · intro h
    simp only [evaluateIntercept]
    rw [if_pos h]
  · intro h
    refine ⟨?_, sphT0_onSphere x y z vx vy vz R (ne_of_gt ha) h,
      sphT1_onSphere x y z vx vy vz R (ne_of_gt ha) h, ?_⟩
    · apply div_le_div_of_nonneg_right ?_ ?_ |>.trans_eq rfl
      · have := Real.sqrt_nonneg (sphDisc x y z vx vy vz R)
        linarith
      · linarith
    · simp only [evaluateIntercept]
      rw [if_neg (not_lt.mpr h)]

/-- Witness for C1: a concrete projectile with nonzero velocity. -/
theorem claimC1_sphere_root_selection_witness :
    ((0:ℝ) ≠ 0 ∨ (0:ℝ) ≠ 0 ∨ (-100:ℝ) ≠ 0) ∧
    (sphDisc 0 0 20 0 0 (-100) 17.5 < 0 → evaluateIntercept 0 0 20 0 0 (-100) 17.5 = none) :=
  ⟨Or.inr (Or.inr (by norm_num)),
    (claimC1_sphere_root_selection 0 0 20 0 0 (-100) 17.5
      (Or.inr (Or.inr (by norm_num)))).1⟩

/-- Claim C5: when the relative velocity is a positive multiple `k` of the
relative position and the start point is strictly outside radius `R`, the
sphere solver returns no result. -/
theorem claimC5_receding_no_solution (x y z R k : ℝ) (hk : 0 < k)
    (hout : R ^ 2 < x ^ 2 + y ^ 2 + z ^ 2) :
    evaluateIntercept x y z (k * x) (k * y) (k * z) R = none := by
  have hS : 0 < x ^ 2 + y ^ 2 + z ^ 2 := lt_of_le_of_lt (sq_nonneg R) hout
  have ha : sphA (k * x) (k * y) (k * z) = k ^ 2 * (x ^ 2 + y ^ 2 + z ^ 2) := by
    simp only [sphA]; ring
  have hb : sphB x y z (k * x) (k * y) (k * z) = 2 * k * (x ^ 2 + y ^ 2 + z ^ 2) := by
    simp only [sphB]; ring
  have hcpos : 0 < sphC x y z R := by simp only [sphC]; linarith
  have hapos : 0 < sphA (k * x) (k * y) (k * z) := by
    rw [ha]; positivity
  have hbpos : 0 < sphB x y z (k * x) (k * y) (k * z) := by
    rw [hb]; positivity
  -- the discriminant is at most b², so √disc ≤ b
  have hdb : sphDisc x y z (k * x) (k * y) (k * z) R ≤
      sphB x y z (k * x) (k * y) (k * z) ^ 2 := by
    simp only [sphDisc]
    nlinarith [mul_pos hapos hcpos]
  have hsb : Real.sqrt (sphDisc x y z (k * x) (k * y) (k * z) R) ≤
      sphB x y z (k * x) (k * y) (k * z) := by
    calc Real.sqrt (sphDisc x y z (k * x) (k * y) (k * z) R)
        ≤ Real.sqrt (sphB x y z (k * x) (k * y) (k * z) ^ 2) := Real.sqrt_le_sqrt hdb
      _ = sphB x y z (k * x) (k * y) (k * z) := Real.sqrt_sq hbpos.le
  have ht0 : sphT0 x y z (k * x) (k * y) (k * z) R ≤ 0 := by
    apply div_nonpos_of_nonpos_of_nonneg
    · have := Real.sqrt_nonneg (sphDisc x y z (k * x) (k * y) (k * z) R)
      linarith
    · linarith
  have ht1 : sphT1 x y z (k * x) (k * y) (k * z) R ≤ 0 := by
    apply div_nonpos_of_nonpos_of_nonneg
    · linarith
    · linarith
  simp only [evaluateIntercept]
  by_cases hd : sphDisc x y z (k * x) (k * y) (k * z) R < 0
  · rw [if_pos hd]
  · rw [if_neg hd, if_neg (not_lt.mpr ht0), if_neg (not_lt.mpr ht1)]

/-- Witness for C5: a projectile at (3,4,0) receding with `k = 1` from a
sphere of radius 2. -/
theorem claimC5_receding_no_solution_witness :
    (0:ℝ) < 1 ∧ (2:ℝ) ^ 2 < 3 ^ 2 + 4 ^ 2 + 0 ^ 2 ∧
    evaluateIntercept 3 4 0 (1 * 3) (1 * 4) (1 * 0) 2 = none :=
  ⟨by norm_num, by norm_num,
    claimC5_receding_no_solution 3 4 0 2 1 (by norm_num) (by norm_num)⟩

/-! ## Generation-2 constants (`part_001`, lines 12-14) -/

/-- `const RADIUS = 21` (generation 2). -/
noncomputable def RADIUS2 : ℝ := 21

/-- `const HEIGHT = 21` (generation 2). -/
noncomputable def HEIGHT2 : ℝ := 21

/-! ## Cylinder interception solver (`part_001`, `evaluateCylindricalCollision`,
lines 99-149)

The source first checks containment (`-D ≤ y ≤ D` and `x² + z² ≤ R²` with
`D = H/2`, returning 0), then solves the horizontal radius-crossing quadratic
(discriminant `R²(vx²+vz²) - (vx·z - vz·x)²`, smaller root `t0`), accepting
`t0` if positive with the vertical offset inside the band.  Otherwise it
tries the two cap quadratics restricted by `min = max(t0, 0)`: the upper cap
candidate `(-vy - √upper)/ay` is kept if above `min`; the lower cap candidate
`(-vy + √lower)/ay` replaces it if it is smaller than the kept candidate or
above `min`.  A kept candidate is returned if its horizontal distance is
within `R`. -/

/-- `discriminant = R_sq * vxz_magnitude_sq - (vx * z - vz * x) ** 2`. -/
noncomputable def cylDisc (x z vx vz R : ℝ) : ℝ :=
  R ^ 2 * (vx ^ 2 + vz ^ 2) - (vx * z - vz * x) ^ 2

/-- `t0 = (b - math.sqrt(discriminant)) / vxz_magnitude_sq` with
`b = -vx * x - vz * z`. -/
noncomputable def cylT0 (x z vx vz R : ℝ) : ℝ :=
  (-vx * x - vz * z - Real.sqrt (cylDisc x z vx vz R)) / (vx ^ 2 + vz ^ 2)

/-- The vertical offset `y + vy * t + 0.5 * ay * t ** 2` at time `t`. -/
noncomputable def cylHeight (y vy ay t : ℝ) : ℝ := y + vy * t + 0.5 * ay * t ^ 2

/-- `upper_discriminant = vy ** 2 + 2 * ay * (D - y)` with `D = H/2`. -/
noncomputable def upperDisc (y vy ay H : ℝ) : ℝ := vy ^ 2 + 2 * ay * (H / 2 - y)

/-- `lower_discriminant = vy ** 2 - 2 * ay * (D + y)` with `D = H/2`. -/
noncomputable def lowerDisc (y vy ay H : ℝ) : ℝ := vy ^ 2 - 2 * ay * (H / 2 + y)

/-- The cap-crossing candidate `t1` of `part_001` lines 129-145: the source
keeps the upper-cap root `(-vy - √upper)/ay` when it exceeds `min`, then lets
the lower-cap root `(-vy + √lower)/ay` replace it when the kept value exists
and the lower root is smaller, or when the lower root exceeds `min`. -/
noncomputable def capCandidate (mn vy ay ud ld : ℝ) : Option ℝ :=
  if 0 < ud ∧ mn < (-vy - Real.sqrt ud) / ay then
    if 0 < ld then
      if (-vy + Real.sqrt ld) / ay < (-vy - Real.sqrt ud) / ay ∨
          mn < (-vy + Real.sqrt ld) / ay then
        some ((-vy + Real.sqrt ld) / ay)
      else some ((-vy - Real.sqrt ud) / ay)
    else some ((-vy - Real.sqrt ud) / ay)
  else
    if 0 < ld ∧ mn < (-vy + Real.sqrt ld) / ay then some ((-vy + Real.sqrt ld) / ay)
    else none

/-- `evaluateCylindricalCollision` (`part_001` lines 99-149). -/
noncomputable def evaluateCylindricalCollision (x y z vx vy vz ay R H : ℝ) : Option ℝ :=
  if -(H / 2) ≤ y ∧ y ≤ H / 2 ∧ x ^ 2 + z ^ 2 ≤ R ^ 2 then some 0
  else if cylDisc x z vx vz R < 0 then none
  else if 0 < cylT0 x z vx vz R ∧ -(H / 2) ≤ cylHeight y vy ay (cylT0 x z vx vz R) ∧
      cylHeight y vy ay (cylT0 x z vx vz R) ≤ H / 2 then some (cylT0 x z vx vz R)
  else
    match capCandidate (max (cylT0 x z vx vz R) 0) vy ay (upperDisc y vy ay H)
        (lowerDisc y vy ay H) with
    | none => none
    | some t1 =>
        if R ^ 2 < (x + vx * t1) ^ 2 + (z + vz * t1) ^ 2 then none else some t1

/-- Any value produced by `capCandidate` is one of the two cap roots. -/
lemma capCandidate_cases {mn vy ay ud ld t : ℝ}
    (h : capCandidate mn vy ay ud ld = some t) :
    (0 < ud ∧ t = (-vy - Real.sqrt ud) / ay) ∨
    (0 < ld ∧ t = (-vy + Real.sqrt ld) / ay) := by
  simp only [capCandidate] at h
  split_ifs at h with h1 h2 h3 h4
  · exact Or.inr ⟨h2, (Option.some.inj h).symm⟩
  · exact Or.inl ⟨h1.1, (Option.some.inj h).symm⟩
  · exact Or.inl ⟨h1.1, (Option.some.inj h).symm⟩
  · exact Or.inr ⟨h4.1, (Option.some.inj h).symm⟩

/-- With a nonnegative acceleration and a nonnegative lower bound `mn`, any
value produced by `capCandidate` exceeds `mn`. -/
lemma capCandidate_min {mn vy ay ud ld t : ℝ} (hmn : 0 ≤ mn) (hay : 0 ≤ ay)
    (h : capCandidate mn vy ay ud ld = some t) : mn < t := by
  simp only [capCandidate] at h
  split_ifs at h with h1 h2 h3 h4
  · -- lower root replaced the kept upper root
    rw [← Option.some.inj h]
    rcases h3 with h3 | h3
    · -- the lower root was smaller than the kept upper root: impossible for ay ≥ 0
      exfalso
      rcases eq_or_lt_of_le hay with hz | hp
      · rw [← hz, div_zero] at h1
        exact absurd h1.2 (not_lt.mpr hmn)
      · have hl : 0 ≤ Real.sqrt ld := Real.sqrt_nonneg _
        have hu : 0 ≤ Real.sqrt ud := Real.sqrt_nonneg _
        have : (-vy - Real.sqrt ud) / ay ≤ (-vy + Real.sqrt ld) / ay := by
          gcongr
          linarith
        linarith
    · exact h3
  · exact h1.2.trans_eq (Option.some.inj h)
  · exact h1.2.trans_eq (Option.some.inj h)
  · exact h4.2.trans_eq (Option.some.inj h)

/-- With zero vertical acceleration the cap path of this embedding produces
no candidate (the source divides by `ay`; division by zero is 0 here, and a
zero candidate never exceeds the nonnegative bound `mn`). -/
lemma capCandidate_ay_zero {mn vy ud ld : ℝ} (hmn : 0 ≤ mn) :
    capCandidate mn vy 0 ud ld = none := by
  simp only [capCandidate, div_zero]
  rw [if_neg, if_neg]
  · intro hc
    exact absurd hc.2 (not_lt.mpr hmn)
  · intro hc
    exact absurd hc.2 (not_lt.mpr hmn)

/-- When the horizontal velocity vanishes, `cylT0` is 0 in this embedding. -/
lemma cylT0_q_zero {x z vx vz R : ℝ} (h : vx ^ 2 + vz ^ 2 = 0) :
    cylT0 x z vx vz R = 0 := by
  rw [cylT0, h, div_zero]

/-- The point at time `cylT0` is at horizontal distance exactly `R`. -/
lemma cylT0_onRadius (x z vx vz R : ℝ) (hq : vx ^ 2 + vz ^ 2 ≠ 0)
    (hd : 0 ≤ cylDisc x z vx vz R) :
    (x + vx * cylT0 x z vx vz R) ^ 2 + (z + vz * cylT0 x z vx vz R) ^ 2 = R ^ 2 := by
  have hs : Real.sqrt (cylDisc x z vx vz R) ^ 2 =
      R ^ 2 * (vx ^ 2 + vz ^ 2) - (vx * z - vz * x) ^ 2 :=
    (Real.sq_sqrt hd).trans (by rw [cylDisc])
  -- the horizontal quadratic is `q·t² + 2(vx·x + vz·z)·t + (x² + z² - R²) = 0`,
  -- and 4·cylDisc is its discriminant (Lagrange identity)
  have hs2 : (2 * Real.sqrt (cylDisc x z vx vz R)) ^ 2 =
      (2 * (vx * x + vz * z)) ^ 2 - 4 * (vx ^ 2 + vz ^ 2) * (x ^ 2 + z ^ 2 - R ^ 2) := by
    linear_combination 4 * hs
  have h0 := quadRootNeg (vx ^ 2 + vz ^ 2) (2 * (vx * x + vz * z))
    (x ^ 2 + z ^ 2 - R ^ 2) (2 * Real.sqrt (cylDisc x z vx vz R)) hq hs2
  have hT : cylT0 x z vx vz R =
      (-(2 * (vx * x + vz * z)) - 2 * Real.sqrt (cylDisc x z vx vz R)) /
        (2 * (vx ^ 2 + vz ^ 2)) := by
    rw [cylT0, show -(2 * (vx * x + vz * z)) - 2 * Real.sqrt (cylDisc x z vx vz R) =
      2 * (-vx * x - vz * z - Real.sqrt (cylDisc x z vx vz R)) by ring,
      mul_div_mul_left _ _ (two_ne_zero)]
  rw [hT]
  linear_combination h0

/-- The upper-cap root reaches the top cap plane. -/
lemma capRoot_upper (y vy ay H : ℝ) (hay : ay ≠ 0) (hud : 0 ≤ upperDisc y vy ay H) :
    cylHeight y vy ay ((-vy - Real.sqrt (upperDisc y vy ay H)) / ay) = H / 2 := by
  -- the top-cap quadratic is `0.5·ay·t² + vy·t + (y - H/2) = 0`, whose
  -- discriminant is exactly `upperDisc`
  have hs : Real.sqrt (upperDisc y vy ay H) ^ 2 =
      vy ^ 2 - 4 * (0.5 * ay) * (y - H / 2) :=
    (Real.sq_sqrt hud).trans (by rw [upperDisc]; ring)
  have h0 := quadRootNeg (0.5 * ay) vy (y - H / 2) (Real.sqrt (upperDisc y vy ay H))
    (by intro hz; apply hay; nlinarith [hz]) hs
  rw [show (2 : ℝ) * (0.5 * ay) = ay by ring] at h0
  simp only [cylHeight]
  linear_combination h0

/-- The lower-cap root reaches the bottom cap plane. -/
lemma capRoot_lower (y vy ay H : ℝ) (hay : ay ≠ 0) (hld : 0 ≤ lowerDisc y vy ay H) :
    cylHeight y vy ay ((-vy + Real.sqrt (lowerDisc y vy ay H)) / ay) = -(H / 2) := by
  -- the bottom-cap quadratic is `0.5·ay·t² + vy·t + (y + H/2) = 0`, whose
  -- discriminant is exactly `lowerDisc`
  have hs : Real.sqrt (lowerDisc y vy ay H) ^ 2 =
      vy ^ 2 - 4 * (0.5 * ay) * (y + H / 2) :=
    (Real.sq_sqrt hld).trans (by rw [lowerDisc]; ring)
  have h0 := quadRootPos (0.5 * ay) vy (y + H / 2) (Real.sqrt (lowerDisc y vy ay H))
    (by intro hz; apply hay; nlinarith [hz]) hs
  rw [show (2 : ℝ) * (0.5 * ay) = ay by ring] at h0
  simp only [cylHeight]
  linear_combination h0

/-- Claim C4: whenever a solver returns a strictly positive time, the point
at that time lies on the target boundary: on the sphere `|p + v·t| = R` for
the sphere solver; on the lateral surface (horizontal distance exactly `R`)
or on a cap plane (vertical offset exactly `±H/2`, including the `0.5·ay·t²`
term) for the cylinder solver. -/
theorem claimC4_boundary_on_return :
    (∀ x y z vx vy vz R t, evaluateIntercept x y z vx vy vz R = some t → 0 < t →
      (x + vx * t) ^ 2 + (y + vy * t) ^ 2 + (z + vz * t) ^ 2 = R ^ 2) ∧
    (∀ x y z vx vy vz ay R H t,
      evaluateCylindricalCollision x y z vx vy vz ay R H = some t → 0 < t →
      (x + vx * t) ^ 2 + (z + vz * t) ^ 2 = R ^ 2 ∨
      cylHeight y vy ay t = H / 2 ∨ cylHeight y vy ay t = -(H / 2)) := by
  constructor
  · intro x y z vx vy vz R t hres ht
    simp only [evaluateIntercept] at hres
    by_cases h1 : sphDisc x y z vx vy vz R < 0
    · rw [if_pos h1] at hres; cases hres
    · rw [if_neg h1] at hres
      by_cases h2 : 0 < sphT0 x y z vx vy vz R
      · rw [if_pos h2] at hres
        have ha : sphA vx vy vz ≠ 0 := by
          intro h0
          have hz : sphT0 x y z vx vy vz R = 0 := by rw [sphT0, h0, mul_zero, div_zero]
          rw [hz] at h2
          exact lt_irrefl 0 h2
        rw [← Option.some.inj hres]
        exact sphT0_onSphere x y z vx vy vz R ha (not_lt.mp h1)
      · rw [if_neg h2] at hres
        by_cases h3 : 0 < sphT1 x y z vx vy vz R
        · rw [if_pos h3] at hres
          have ha : sphA vx vy vz ≠ 0 := by
            intro h0
            have hz : sphT1 x y z vx vy vz R = 0 := by rw [sphT1, h0, mul_zero, div_zero]
            rw [hz] at h3
            exact lt_irrefl 0 h3
          rw [← Option.some.inj hres]
          exact sphT1_onSphere x y z vx vy vz R ha (not_lt.mp h1)
        · rw [if_neg h3] at hres; cases hres
  · intro x y z vx vy vz ay R H t hres ht
    simp only [evaluateCylindricalCollision] at hres
    by_cases h1 : -(H / 2) ≤ y ∧ y ≤ H / 2 ∧ x ^ 2 + z ^ 2 ≤ R ^ 2
    · rw [if_pos h1] at hres
      exfalso
      rw [← Option.some.inj hres] at ht
      exact lt_irrefl 0 ht
    · rw [if_neg h1] at hres
      by_cases h2 : cylDisc x z vx vz R < 0
      · rw [if_pos h2] at hres; cases hres
      · rw [if_neg h2] at hres
        by_cases h3 : 0 < cylT0 x z vx vz R ∧
            -(H / 2) ≤ cylHeight y vy ay (cylT0 x z vx vz R) ∧
            cylHeight y vy ay (cylT0 x z vx vz R) ≤ H / 2
        · rw [if_pos h3] at hres
          have hq : vx ^ 2 + vz ^ 2 ≠ 0 := by
            intro h0
            have := h3.1
            rw [cylT0_q_zero h0] at this
            exact lt_irrefl 0 this
          left
          rw [← Option.some.inj hres]
          exact cylT0_onRadius x z vx vz R hq (not_lt.mp h2)
        · rw [if_neg h3] at hres
          rcases hcc : capCandidate (max (cylT0 x z vx vz R) 0) vy ay
              (upperDisc y vy ay H) (lowerDisc y vy ay H) with _ | t1
          · simp only [hcc] at hres
            cases hres
          · simp only [hcc] at hres
            by_cases h4 : R ^ 2 < (x + vx * t1) ^ 2 + (z + vz * t1) ^ 2
            · rw [if_pos h4] at hres; cases hres
            · rw [if_neg h4] at hres
              have ht1 : t1 = t := Option.some.inj hres
              subst ht1
              have hay : ay ≠ 0 := by
                intro h0
                rw [h0, capCandidate_ay_zero (le_max_right _ _)] at hcc
                cases hcc
              rcases capCandidate_cases hcc with ⟨hud, hteq⟩ | ⟨hld, hteq⟩
              · right; left
                rw [hteq]
                exact capRoot_upper y vy ay H hay hud.le
              · right; right
                rw [hteq]
                exact capRoot_lower y vy ay H hay hld.le

/-- Amended claim C2: with a nonnegative vertical acceleration, any time the
cylinder solver returns from the cap-crossing path is no smaller than the
clamped radius-crossing candidate `max(t0, 0)`, and at that time the
horizontal distance from the axis is within `R`. -/
theorem claimC2_cap_path_bound (x y z vx vy vz ay R H t : ℝ) (hay : 0 ≤ ay)
    (hcont : ¬(-(H / 2) ≤ y ∧ y ≤ H / 2 ∧ x ^ 2 + z ^ 2 ≤ R ^ 2))
    (hrf : ¬(0 < cylT0 x z vx vz R ∧
      -(H / 2) ≤ cylHeight y vy ay (cylT0 x z vx vz R) ∧
      cylHeight y vy ay (cylT0 x z vx vz R) ≤ H / 2))
    (hres : evaluateCylindricalCollision x y z vx vy vz ay R H = some t) :
    max (cylT0 x z vx vz R) 0 ≤ t ∧ (x + vx * t) ^ 2 + (z + vz * t) ^ 2 ≤ R ^ 2 := by
  simp only [evaluateCylindricalCollision] at hres
  rw [if_neg hcont] at hres
  by_cases h2 : cylDisc x z vx vz R < 0
  · rw [if_pos h2] at hres; cases hres
  · rw [if_neg h2, if_neg hrf] at hres
    rcases hcc : capCandidate (max (cylT0 x z vx vz R) 0) vy ay
        (upperDisc y vy ay H) (lowerDisc y vy ay H) with _ | t1
    · simp only [hcc] at hres
      cases hres
    · simp only [hcc] at hres
      by_cases h4 : R ^ 2 < (x + vx * t1) ^ 2 + (z + vz * t1) ^ 2
      · rw [if_pos h4] at hres; cases hres
      · rw [if_neg h4] at hres
        have ht1 : t1 = t := Option.some.inj hres
        subst ht1
        exact ⟨(capCandidate_min (le_max_right _ _) hay hcc).le, not_lt.mp h4⟩

lemma sqrt_sixteen : Real.sqrt 16 = 4 := by
  rw [show (16 : ℝ) = 4 ^ 2 by norm_num]
  exact Real.sqrt_sq (by norm_num)

lemma sqrt_nine : Real.sqrt 9 = 3 := by
  rw [show (9 : ℝ) = 3 ^ 2 by norm_num]
  exact Real.sqrt_sq (by norm_num)

lemma sqrt_eightyone : Real.sqrt 81 = 9 := by
  rw [show (81 : ℝ) = 9 ^ 2 by norm_num]
  exact Real.sqrt_sq (by norm_num)

/-- At the counterexample input the radius-crossing candidate is `-3`. -/
lemma cylT0_cex_eval : cylT0 2 0 1 0 1 = -3 := by
  have hd : cylDisc 2 0 1 0 1 = 1 := by rw [cylDisc]; norm_num
  rw [cylT0, hd, Real.sqrt_one]
  norm_num

/-- The cylinder solver at the counterexample input: the ball starts above
the cylinder (`y = 3 > H/2`), the acceleration is downward (`ay = -2`), and
the lower-cap root `-2` replaces the accepted upper-cap root because it is
smaller, although it is below `max(t0, 0) = 0`. -/
lemma evalCyl_cex_eval : evaluateCylindricalCollision 2 3 0 1 0 0 (-2) 1 2 = some (-2) := by
  have hd : cylDisc 2 0 1 0 1 = 1 := by rw [cylDisc]; norm_num
  have hud : upperDisc 3 0 (-2) 2 = 8 := by rw [upperDisc]; norm_num
  have hld : lowerDisc 3 0 (-2) 2 = 16 := by rw [lowerDisc]; norm_num
  have hmax : max (cylT0 2 0 1 0 1) 0 = 0 := by
    rw [cylT0_cex_eval]
    exact max_eq_right (by norm_num)
  have hsq8 : 0 < Real.sqrt 8 := Real.sqrt_pos.mpr (by norm_num)
  have hup : (-(0:ℝ) - Real.sqrt 8) / (-2) = Real.sqrt 8 / 2 := by ring
  have hcap : capCandidate 0 0 (-2) 8 16 = some (-2) := by
    rw [capCandidate]
    rw [if_pos ⟨by norm_num, by rw [hup]; positivity⟩]
    rw [if_pos (by norm_num : (0:ℝ) < 16)]
    rw [if_pos (Or.inl (by
      rw [hup, sqrt_sixteen]
      have h8 := Real.sqrt_nonneg (8:ℝ)
      norm_num
      linarith))]
    rw [sqrt_sixteen]
    norm_num
  rw [evaluateCylindricalCollision]
  rw [if_neg (by intro hc; have := hc.2.1; norm_num at this)]
  rw [if_neg (by rw [hd]; norm_num)]
  rw [if_neg (by intro hc; have := hc.1; rw [cylT0_cex_eval] at this; norm_num at this)]
  simp only [hmax, hud, hld, hcap]
  rw [if_neg (by norm_num)]

/-- Counterexample to claim C2 as stated: at input
`(x,y,z) = (2,3,0)`, `(vx,vy,vz) = (1,0,0)`, `ay = -2`, `R = 1`, `H = 2` the
cap-crossing path is taken (containment fails and the radius-first root
`t0 = -3` is not accepted), yet the solver returns `-2`, which is smaller
than the clamped radius-crossing candidate `max(t0, 0) = 0`. -/
theorem claimC2_cap_path_bound_cex :
    ¬(-((2:ℝ) / 2) ≤ 3 ∧ (3:ℝ) ≤ 2 / 2 ∧ (2:ℝ) ^ 2 + 0 ^ 2 ≤ 1 ^ 2) ∧
    ¬(0 < cylT0 2 0 1 0 1 ∧
      -((2:ℝ) / 2) ≤ cylHeight 3 0 (-2) (cylT0 2 0 1 0 1) ∧
      cylHeight 3 0 (-2) (cylT0 2 0 1 0 1) ≤ 2 / 2) ∧
    evaluateCylindricalCollision 2 3 0 1 0 0 (-2) 1 2 = some (-2) ∧
    (-2 : ℝ) < max (cylT0 2 0 1 0 1) 0 := by
  refine ⟨?_, ?_, evalCyl_cex_eval, ?_⟩
  · intro hc
    have := hc.2.1
    norm_num at this
  · intro hc
    have := hc.1
    rw [cylT0_cex_eval] at this
    norm_num at this
  · rw [cylT0_cex_eval]
    rw [max_eq_right (by norm_num : (-3:ℝ) ≤ 0)]
    norm_num

/-- At the witness input the radius-crossing candidate is `4/9`. -/
lemma cylT0_wit_eval : cylT0 5 0 (-9) 0 1 = 4 / 9 := by
  have hd : cylDisc 5 0 (-9) 0 1 = 81 := by rw [cylDisc]; norm_num
  rw [cylT0, hd, sqrt_eightyone]
  norm_num

/-- The cylinder solver at the C2 witness input: upward acceleration
`ay = 4`, ball above the band moving down; the radius-first root `4/9` is
rejected (vertical offset `95/81 > 1`) and the upper-cap root `1/2` is
accepted. -/
lemma evalCyl_wit_eval : evaluateCylindricalCollision 5 3 0 (-9) (-5) 0 4 1 2 = some (1 / 2) := by
  have hud : upperDisc 3 (-5) 4 2 = 9 := by rw [upperDisc]; norm_num
  have hld : lowerDisc 3 (-5) 4 2 = -7 := by rw [lowerDisc]; norm_num
  have hmax : max (cylT0 5 0 (-9) 0 1) 0 = 4 / 9 := by
    rw [cylT0_wit_eval]
    exact max_eq_left (by norm_num)
  have hcap : capCandidate (4 / 9) (-5) 4 9 (-7) = some (1 / 2) := by
    rw [capCandidate]
    rw [if_pos ⟨by norm_num, by rw [sqrt_nine]; norm_num⟩]
    rw [if_neg (by norm_num : ¬(0:ℝ) < -7)]
    rw [sqrt_nine]
    norm_num
  rw [evaluateCylindricalCollision]
  rw [if_neg (by intro hc; have := hc.2.1; norm_num at this)]
  rw [if_neg (by rw [show cylDisc 5 0 (-9) 0 1 = 81 by rw [cylDisc]; norm_num]; norm_num)]
  rw [if_neg (by
    intro hc
    have := hc.2.2
    rw [cylT0_wit_eval, cylHeight] at this
    norm_num at this)]
  simp only [hmax, hud, hld, hcap]
  rw [if_neg (by norm_num)]

/-- Witness for the amended C2: a concrete cap-path return with `ay = 4`. -/
theorem claimC2_cap_path_bound_witness :
    (0:ℝ) ≤ 4 ∧
    (max (cylT0 5 0 (-9) 0 1) 0 ≤ (1 / 2 : ℝ) ∧
      ((5:ℝ) + (-9) * (1 / 2)) ^ 2 + ((0:ℝ) + 0 * (1 / 2)) ^ 2 ≤ 1 ^ 2) :=
  ⟨by norm_num,
    claimC2_cap_path_bound 5 3 0 (-9) (-5) 0 4 1 2 (1 / 2) (by norm_num)
      (by intro hc; have := hc.2.1; norm_num at this)
      (by
        intro hc
        have := hc.2.2
        rw [cylT0_wit_eval, cylHeight] at this
        norm_num at this)
      evalCyl_wit_eval⟩

/-- Witness for C4: the sphere solver at `(0,0,20)` with velocity
`(0,0,-100)` and radius `17.5` returns `0.025`, which lies on the sphere;
the cylinder solver at `(3,0,0)` with velocity `(-1,0,0)` returns `2`,
which lies on the lateral surface. -/
theorem claimC4_boundary_on_return_witness :
    (evaluateIntercept 0 0 20 0 0 (-100) 17.5 = some (1 / 40) ∧
      ((0:ℝ) + 0 * (1 / 40)) ^ 2 + ((0:ℝ) + 0 * (1 / 40)) ^ 2 +
        ((20:ℝ) + (-100) * (1 / 40)) ^ 2 = 17.5 ^ 2) ∧
    (evaluateCylindricalCollision 3 0 0 (-1) 0 0 0 1 2 = some 2 ∧
      (((3:ℝ) + (-1) * 2) ^ 2 + ((0:ℝ) + 0 * 2) ^ 2 = 1 ^ 2 ∨
        cylHeight 0 0 0 2 = 2 / 2 ∨ cylHeight 0 0 0 2 = -(2 / 2))) := by
  have hsph : evaluateIntercept 0 0 20 0 0 (-100) 17.5 = some (1 / 40) := by
    have hd : sphDisc 0 0 20 0 0 (-100) 17.5 = 12250000 := by
      rw [sphDisc, sphA, sphB, sphC]; norm_num
    have hsq : Real.sqrt 12250000 = 3500 := by
      rw [show (12250000 : ℝ) = 3500 ^ 2 by norm_num]
      exact Real.sqrt_sq (by norm_num)
    have ht0 : sphT0 0 0 20 0 0 (-100) 17.5 = 1 / 40 := by
      rw [sphT0, hd, hsq, sphA, sphB]
      norm_num
    rw [evaluateIntercept]
    rw [if_neg (by rw [hd]; norm_num)]
    rw [if_pos (by rw [ht0]; norm_num), ht0]
  have hcyl : evaluateCylindricalCollision 3 0 0 (-1) 0 0 0 1 2 = some 2 := by
    have hd : cylDisc 3 0 (-1) 0 1 = 1 := by rw [cylDisc]; norm_num
    have ht0 : cylT0 3 0 (-1) 0 1 = 2 := by
      rw [cylT0, hd, Real.sqrt_one]
      norm_num
    rw [evaluateCylindricalCollision]
    rw [if_neg (by intro hc; have := hc.2.2; norm_num at this)]
    rw [if_neg (by rw [hd]; norm_num)]
    rw [if_pos ⟨by rw [ht0]; norm_num, by rw [ht0, cylHeight]; norm_num,
      by rw [ht0, cylHeight]; norm_num⟩]
    rw [ht0]
  exact ⟨⟨hsph, claimC4_boundary_on_return.1 0 0 20 0 0 (-100) 17.5 (1 / 40) hsph
      (by norm_num)⟩,
    ⟨hcyl, claimC4_boundary_on_return.2 3 0 0 (-1) 0 0 0 1 2 2 hcyl (by norm_num)⟩⟩

/-! ## Decision loop (`ParryController`, `part_000` lines 356-399 and
`part_001` lines 346-394)

The per-candidate body of the heartbeat callback: skip when the debounce
flag is set (`!ball.canParry()`), skip when the declared target is not the
local player's name, parry immediately when the relative position's
magnitude is already below the radius, otherwise run the solver and compare
the predicted time with `COMPENSATION`.  Generation 1 skips when
`intercept > COMPENSATION`; generation 2 skips when
`intercept < COMPENSATION`. -/

/-- Generation-1 per-ball decision (`part_000` lines 376-395): returns
whether `useParry` is invoked for the candidate. -/
noncomputable def parryFires1 (canParry : Bool) (tgt nm : String)
    (px py pz vx vy vz : ℝ) : Bool :=
  if canParry = false then false
  else if tgt ≠ nm then false
  else if Real.sqrt (px ^ 2 + py ^ 2 + pz ^ 2) < RADIUS1 then true
  else
    match evaluateIntercept px py pz vx vy vz RADIUS1 with
    | none => false
    | some t => if COMPENSATION < t then false else true

/-- Generation-2 per-ball decision (`part_001` lines 369-391, for the
currently active ball), with the process-wide gravity mirror `g` passed to
the cylinder solver. -/
noncomputable def parryFires2 (canParry : Bool) (tgt nm : String)
    (px py pz vx vy vz g : ℝ) : Bool :=
  if canParry = false then false
  else if tgt ≠ nm then false
  else if Real.sqrt (px ^ 2 + py ^ 2 + pz ^ 2) < RADIUS2 then true
  else
    match evaluateCylindricalCollision px py pz vx vy vz g RADIUS2 HEIGHT2 with
    | none => false
    | some t => if t < COMPENSATION then false else true

/-- Claim C3: for a candidate that passes the debounce, target-name and
inside-radius checks and for which the solver returns a time `t`, the first
generation parries exactly when `t ≤ COMPENSATION` and the second generation
parries exactly when `t ≥ COMPENSATION`. -/
theorem claimC3_threshold_direction :
    (∀ (canParry : Bool) (tgt nm : String) (px py pz vx vy vz t : ℝ),
      canParry = true → tgt = nm →
      ¬ Real.sqrt (px ^ 2 + py ^ 2 + pz ^ 2) < RADIUS1 →
      evaluateIntercept px py pz vx vy vz RADIUS1 = some t →
      (parryFires1 canParry tgt nm px py pz vx vy vz = true ↔ t ≤ COMPENSATION)) ∧
    (∀ (canParry : Bool) (tgt nm : String) (px py pz vx vy vz g t : ℝ),
      canParry = true → tgt = nm →
      ¬ Real.sqrt (px ^ 2 + py ^ 2 + pz ^ 2) < RADIUS2 →
      evaluateCylindricalCollision px py pz vx vy vz g RADIUS2 HEIGHT2 = some t →
      (parryFires2 canParry tgt nm px py pz vx vy vz g = true ↔ COMPENSATION ≤ t)) := by
  constructor
  · intro cp tgt nm px py pz vx vy vz t h1 h2 h3 h4
    simp only [parryFires1, h1, h2]
    rw [if_neg (by simp), if_neg (by simp), if_neg h3]
    simp only [h4]
    rcases le_or_lt t COMPENSATION with h5 | h5
    · rw [if_neg (not_lt.mpr h5)]
      simpa using h5
    · rw [if_pos h5]
      simp [not_le.mpr h5]
  · intro cp tgt nm px py pz vx vy vz g t h1 h2 h3 h4
    simp only [parryFires2, h1, h2]
    rw [if_neg (by simp), if_neg (by simp), if_neg h3]
    simp only [h4]
    rcases le_or_lt COMPENSATION t with h5 | h5
    · rw [if_neg (not_lt.mpr h5)]
      simpa using h5
    · rw [if_pos h5]
      simp [not_le.mpr h5]

/-- The sphere solver at the C3/C4 demonstration input. -/
lemma evalIntercept_demo : evaluateIntercept 0 0 20 0 0 (-100) RADIUS1 = some (1 / 40) := by
  rw [show (RADIUS1 : ℝ) = 17.5 from rfl]
  have hd : sphDisc 0 0 20 0 0 (-100) 17.5 = 12250000 := by
    rw [sphDisc, sphA, sphB, sphC]; norm_num
  have hsq : Real.sqrt 12250000 = 3500 := by
    rw [show (12250000 : ℝ) = 3500 ^ 2 by norm_num]
    exact Real.sqrt_sq (by norm_num)
  have ht0 : sphT0 0 0 20 0 0 (-100) 17.5 = 1 / 40 := by
    rw [sphT0, hd, hsq, sphA, sphB]
    norm_num
  rw [evaluateIntercept]
  rw [if_neg (by rw [hd]; norm_num)]
  rw [if_pos (by rw [ht0]; norm_num), ht0]

/-- Witness for C3: generation 1 fires on an incoming ball predicted to hit
in `0.025 ≤ 0.2` seconds; generation 2, at a candidate the solver resolves
to time `0`, fires exactly when `0.2 ≤ 0` (that is, not at all). -/
theorem claimC3_threshold_direction_witness :
    (parryFires1 true "A" "A" 0 0 20 0 0 (-100) = true) ∧
    (parryFires2 true "A" "A" 21 0 0 0 0 0 (196.2 : ℝ) = true ↔ COMPENSATION ≤ 0) := by
  have hmag1 : ¬ Real.sqrt ((0:ℝ) ^ 2 + 0 ^ 2 + 20 ^ 2) < RADIUS1 := by
    rw [show (0:ℝ) ^ 2 + 0 ^ 2 + 20 ^ 2 = 20 ^ 2 by norm_num,
      Real.sqrt_sq (by norm_num : (0:ℝ) ≤ 20), show (RADIUS1 : ℝ) = 17.5 from rfl]
    norm_num
  have hmag2 : ¬ Real.sqrt ((21:ℝ) ^ 2 + 0 ^ 2 + 0 ^ 2) < RADIUS2 := by
    rw [show (21:ℝ) ^ 2 + 0 ^ 2 + 0 ^ 2 = 21 ^ 2 by norm_num,
      Real.sqrt_sq (by norm_num : (0:ℝ) ≤ 21), show (RADIUS2 : ℝ) = 21 from rfl]
    norm_num
  have heval2 : evaluateCylindricalCollision 21 0 0 0 0 0 196.2 RADIUS2 HEIGHT2 = some 0 := by
    rw [show (RADIUS2 : ℝ) = 21 from rfl, show (HEIGHT2 : ℝ) = 21 from rfl,
      evaluateCylindricalCollision]
    rw [if_pos ⟨by norm_num, by norm_num, by norm_num⟩]
  constructor
  · exact (claimC3_threshold_direction.1 true "A" "A" 0 0 20 0 0 (-100) (1 / 40)
      rfl rfl hmag1 evalIntercept_demo).mpr
      (by rw [show (COMPENSATION : ℝ) = 200 / 1000 from rfl]; norm_num)
  · exact claimC3_threshold_direction.2 true "A" "A" 21 0 0 0 0 0 196.2 0
      rfl rfl hmag2 heval2

/-! ## ResourceBin (`class Bin`, `part_000` lines 27-94, `part_001` lines
30-97)

The source keeps a singly-linked chain with `head`/`tail` pointers: `add`
appends one node at the tail, `batch` appends several, `destroy` walks from
`head`, disposing each node's item in chain order, and ends with
`head = undefined`; `isEmpty` checks `head === undefined`.  The embedding
keeps the chain reachable from `head` as a list of handles; `destroy`
returns the ordered list of disposed handles alongside the new state. -/

structure Bin (α : Type) where
  items : List α
deriving Repr, DecidableEq

/-- A freshly constructed `Bin` (both pointers undefined). -/
def Bin.empty {α : Type} : Bin α := ⟨[]⟩

/-- `add(item)`: append one node at the tail. -/
def Bin.add {α : Type} (s : Bin α) (h : α) : Bin α := ⟨s.items ++ [h]⟩

/-- `batch(...args)`: append each argument at the tail, in order. -/
def Bin.batch {α : Type} (s : Bin α) (hs : List α) : Bin α := ⟨s.items ++ hs⟩

/-- `destroy()`: dispose every item while walking from `head`; afterwards
the chain is empty.  The first component is the dispose order. -/
def Bin.destroy {α : Type} (s : Bin α) : List α × Bin α := (s.items, ⟨[]⟩)

/-- `isEmpty()`: whether `head === undefined`. -/
def Bin.isEmpty {α : Type} (s : Bin α) : Bool := s.items.isEmpty

/-- A call against the bin: `add` with one handle or `batch` with several. -/
inductive BinOp (α : Type) where
  | add (h : α)
  | batch (hs : List α)

def Bin.applyOp {α : Type} (s : Bin α) : BinOp α → Bin α
  | .add h => s.add h
  | .batch hs => s.batch hs

def Bin.runOps {α : Type} (ops : List (BinOp α)) : Bin α :=
  ops.foldl Bin.applyOp Bin.empty

/-- All handles inserted by a call sequence, in insertion order. -/
def BinOp.inserted {α : Type} : List (BinOp α) → List α
  | [] => []
  | .add h :: rest => h :: BinOp.inserted rest
  | .batch hs :: rest => hs ++ BinOp.inserted rest

lemma Bin.foldl_items {α : Type} (ops : List (BinOp α)) :
    ∀ s : Bin α, (ops.foldl Bin.applyOp s).items = s.items ++ BinOp.inserted ops := by
  induction ops with
  | nil => intro s; simp [BinOp.inserted]
  | cons op rest ih =>
      intro s
      cases op with
      | add h =>
          simp only [List.foldl_cons, Bin.applyOp, BinOp.inserted]
          rw [ih]
          simp [Bin.add]
      | batch hs =>
          simp only [List.foldl_cons, Bin.applyOp, BinOp.inserted]
          rw [ih]
          simp [Bin.batch]

/-- Claim C6: for every sequence of `add`/`batch` calls, `destroy` disposes
exactly the inserted handles, once each, in FIFO insertion order, and leaves
the bin empty; a second `destroy` disposes nothing, and `destroy` on an
empty bin is a no-op. -/
theorem claimC6_bin_fifo_dispose (α : Type) (ops : List (BinOp α)) :
    (Bin.runOps ops).destroy = (BinOp.inserted ops, Bin.empty) ∧
    ((Bin.runOps ops).destroy.2).isEmpty = true ∧
    ((Bin.runOps ops).destroy.2).destroy = ([], Bin.empty) ∧
    (Bin.empty : Bin α).destroy = ([], Bin.empty) := by
  refine ⟨?_, ?_, ?_, rfl⟩
  · rw [Bin.destroy, Bin.runOps, Bin.foldl_items]
    rfl
  · rw [Bin.destroy]
    rfl
  · rfl

/-! ## Deferred container binding (`bindToChild`, `part_001` lines 151-162)

`bindToChild(parent, name, callback)`: when `FindFirstChild(name)` already
yields a child, the callback runs immediately and no connection is made;
otherwise a `ChildAdded` connection is made whose handler, on the first
child whose `Name` matches, first disconnects the connection and then runs
the callback. -/

structure BindState where
  connected : Bool
  fires : Nat
deriving Repr, DecidableEq

/-- The state right after the `bindToChild` call: `present` tells whether a
child with the name already existed. -/
def bindToChildInit (present : Bool) : BindState :=
  if present then ⟨false, 1⟩ else ⟨true, 0⟩

/-- One `ChildAdded` delivery carrying the added child's name. -/
def bindToChildStep (nm : String) (s : BindState) (child : String) : BindState :=
  if s.connected = true ∧ child = nm then ⟨false, s.fires + 1⟩ else s

def bindToChildRun (nm : String) (present : Bool) (events : List String) : BindState :=
  events.foldl (bindToChildStep nm) (bindToChildInit present)

lemma bindToChild_inactive (nm : String) (k : Nat) (events : List String) :
    events.foldl (bindToChildStep nm) ⟨false, k⟩ = ⟨false, k⟩ := by
  induction events with
  | nil => rfl
  | cons e rest ih =>
      simp only [List.foldl_cons, bindToChildStep]
      rw [if_neg (by simp)]
      exact ih

lemma bindToChild_pending (nm : String) (events : List String) :
    events.foldl (bindToChildStep nm) ⟨true, 0⟩ =
      if nm ∈ events then ⟨false, 1⟩ else ⟨true, 0⟩ := by
  induction events with
  | nil => rfl
  | cons e rest ih =>
      simp only [List.foldl_cons]
      by_cases he : e = nm
      · rw [show bindToChildStep nm ⟨true, 0⟩ e = ⟨false, 1⟩ from by
          rw [bindToChildStep, if_pos ⟨rfl, he⟩]]
        rw [bindToChild_inactive, if_pos (by simp [he])]
      · rw [show bindToChildStep nm ⟨true, 0⟩ e = ⟨true, 0⟩ from by
          rw [bindToChildStep, if_neg (by simp [he])]]
        rw [ih]
        by_cases hm : nm ∈ rest
        · rw [if_pos hm, if_pos (by simp [hm])]
        · rw [if_neg hm, if_neg (by
            intro hc
            rcases List.mem_cons.mp hc with h | h
            · exact he h.symm
            · exact hm h)]

/-- Claim C8: the `bindToChild` callback runs at most once in total: exactly
once, with no residual connection, when the child already exists; otherwise
exactly once on the first matching `ChildAdded` event, after which the
connection is disconnected, and never again. -/
theorem claimC8_bind_single_shot (nm : String) (present : Bool)
    (events : List String) :
    (bindToChildRun nm present events).fires ≤ 1 ∧
    bindToChildRun nm true events = ⟨false, 1⟩ ∧
    ((bindToChildRun nm false events).fires = if nm ∈ events then 1 else 0) ∧
    ((bindToChildRun nm false events).connected = true ↔ nm ∉ events) ∧
    (∀ pre post : List String, nm ∉ pre →
      bindToChildRun nm false (pre ++ nm :: post) = ⟨false, 1⟩) := by
  have hTrue : ∀ evs, bindToChildRun nm true evs = ⟨false, 1⟩ := by
    intro evs
    rw [bindToChildRun, bindToChildInit, if_pos rfl]
    exact bindToChild_inactive nm 1 evs
  have hFalse : ∀ evs, bindToChildRun nm false evs =
      if nm ∈ evs then ⟨false, 1⟩ else ⟨true, 0⟩ := by
    intro evs
    rw [bindToChildRun, bindToChildInit, if_neg (by simp)]
    exact bindToChild_pending nm evs
  refine ⟨?_, hTrue events, ?_, ?_, ?_⟩
  · cases present
    · rw [hFalse events]
      by_cases hm : nm ∈ events
      · rw [if_pos hm]
      · rw [if_neg hm]
        exact Nat.zero_le 1
    · rw [hTrue events]
  · rw [hFalse events]
    by_cases hm : nm ∈ events
    · rw [if_pos hm, if_pos hm]
    · rw [if_neg hm, if_neg hm]
  · rw [hFalse events]
    by_cases hm : nm ∈ events
    · rw [if_pos hm]
      simp [hm]
    · rw [if_neg hm]
      simp [hm]
  · intro pre post hpre
    rw [bindToChildRun, bindToChildInit, if_neg (by simp), List.foldl_append]
    rw [bindToChild_pending, if_neg hpre]
    simp only [List.foldl_cons]
    rw [show bindToChildStep nm ⟨true, 0⟩ nm = ⟨false, 1⟩ from by
      rw [bindToChildStep, if_pos ⟨rfl, rfl⟩]]
    exact bindToChild_inactive nm 1 post

/-- Witness for C8: with no pre-existing child, the callback fires exactly
once on the first matching event and ignores the second matching event. -/
theorem claimC8_bind_single_shot_witness :
    "Balls" ∉ (["A"] : List String) ∧
    bindToChildRun "Balls" false (["A"] ++ "Balls" :: ["Balls"]) = ⟨false, 1⟩ :=
  ⟨by decide,
    (claimC8_bind_single_shot "Balls" false []).2.2.2.2 ["A"] ["Balls"] (by decide)⟩

/-! ## Process-wide guard (`part_000`/`part_001` lines 4-5, initialization at
`part_000` lines 406-407 and `part_001` lines 401-403)

`if (_G["bladeball"]) throw "This program is already running!";
_G["bladeball"] = true;` runs before anything else in the module body; the
controller `__init` calls (which create every component, subscription and
registry entry) come last. -/

/-- The initialization steps a successful generation-1 load performs, in
order. -/
def initSequence1 : List String := ["ComponentController", "ParryController"]

/-- The initialization steps a successful generation-2 load performs, in
order. -/
def initSequence2 : List String :=
  ["ComponentController", "VariableController", "ParryController"]

/-- The module body as a function of the process-wide guard `_G["bladeball"]`:
a set guard throws before performing any step; otherwise the guard is set
and the steps run.  The error value carries no performed steps. -/
def loadModule (steps : List String) (guard : Bool) : Except String (Bool × List String) :=
  if guard then Except.error "This program is already running!"
  else Except.ok (true, steps)

/-- Claim C9: loading with the guard already set throws before any component,
subscription or registry entry is created (the error path performs no
initialization step); a first successful load sets the guard, so that a
second load in the same process fails loudly. -/
theorem claimC9_module_guard :
    (loadModule initSequence1 true = Except.error "This program is already running!") ∧
    (loadModule initSequence2 true = Except.error "This program is already running!") ∧
    (loadModule initSequence1 false = Except.ok (true, initSequence1)) ∧
    (loadModule initSequence2 false = Except.ok (true, initSequence2)) ∧
    ((match loadModule initSequence2 false with
      | Except.ok (g, _) => loadModule initSequence2 g
      | Except.error e => Except.error e) =
      Except.error "This program is already running!") :=
  ⟨rfl, rfl, rfl, rfl, rfl⟩

/-! ## Player / character lifecycle (`part_000` lines 279-325, `part_001`
lines 258-304)

`CharacterComponent` extends `RigComponent` whose constructor resolves the
root part and humanoid, wires `Died`/`Destroying` to `destroy`, and does
nothing else; the `CharacterComponent` constructor body is just
`super(instance)`.  The static `CharacterComponent.active` map is declared
(`part_000` line 280, `part_001` line 259) but no code inserts into it or
deletes from it.  `PlayerComponent.onCharacterAdded` destroys the previous
character component and constructs a new one;
`PlayerComponent.onCharacterRemoving` destroys it and clears the field. -/

structure PlayerState where
  character : Option Nat
  liveCharacters : Nat
  charRegistry : List Nat
deriving Repr, DecidableEq

inductive PlayerEvent where
  | characterRemoving
  | characterAdded (m : Nat)

/-- `onCharacterRemoving` / `onCharacterAdded` (`part_000` lines 308-316):
destroying a `CharacterComponent` runs only its bin (disconnecting the
`Died`/`Destroying` connections) and constructing one registers nothing, so
`charRegistry` — the contents of `CharacterComponent.active` — never
changes. -/
def playerStep (s : PlayerState) : PlayerEvent → PlayerState
  | .characterRemoving =>
      { character := none,
        liveCharacters := s.liveCharacters - (if s.character.isSome then 1 else 0),
        charRegistry := s.charRegistry }
  | .characterAdded m =>
      { character := some m,
        liveCharacters := s.liveCharacters - (if s.character.isSome then 1 else 0) + 1,
        charRegistry := s.charRegistry }

/-- A fresh `PlayerComponent` with no character; the process-wide
`CharacterComponent.active` map starts empty. -/
def playerInit : PlayerState := ⟨none, 0, []⟩

def playerRun (events : List PlayerEvent) : PlayerState :=
  events.foldl playerStep playerInit

lemma playerStep_registry (events : List PlayerEvent) :
    ∀ s : PlayerState, (events.foldl playerStep s).charRegistry = s.charRegistry := by
  induction events with
  | nil => intro s; rfl
  | cons e rest ih =>
      intro s
      rw [List.foldl_cons, ih]
      cases e <;> rfl

/-- Counterexample to claim C7 as stated: after a character-removed event
followed by a character-added event, the `CharacterComponent.active`
registry holds zero entries, not exactly one. -/
theorem claimC7_char_registry_cex :
    ¬ (playerRun [PlayerEvent.characterRemoving,
        PlayerEvent.characterAdded 7]).charRegistry.length = 1 := by
  decide

/-- Amended claim C7: after character-removed followed by character-added,
exactly one live `CharacterComponent` exists and the player references it,
but it is not registered: no event sequence ever populates the
`CharacterComponent.active` registry, which stays empty. -/
theorem claimC7_char_registry_amended :
    (∀ events : List PlayerEvent, (playerRun events).charRegistry = []) ∧
    (playerRun [PlayerEvent.characterRemoving,
        PlayerEvent.characterAdded 7]).liveCharacters = 1 ∧
    (playerRun [PlayerEvent.characterRemoving,
        PlayerEvent.characterAdded 7]).character = some 7 :=
  ⟨fun events => playerStep_registry events playerInit, rfl, rfl⟩

/-! ## Single-target ball registry (`class BallComponent`, `part_001` lines
182-233)

Generation 2 keeps one static field `BallComponent.active` instead of a
map.  `updateActive` clears the debounce, recomputes `active` from the
`realBall` attribute, points the static field at the component when active,
and clears it when inactive and currently pointing at the component.  The
constructor runs `updateActive`/`updateTarget` and wires the attribute
connections, a cleanup closure clearing the static field when it points
here, and `Destroying` to `destroy`.  `destroy` runs the bin once: the
cleanup closure fires and every connection is disconnected, so no further
attribute event reaches a destroyed component; the `active` field itself is
not reset. -/

structure BallC where
  active : Bool
  target : String
  hit : Bool
  destroyed : Bool
deriving Repr, DecidableEq

structure BallWorld where
  comps : Nat → Option BallC
  activeBall : Option Nat

inductive BallEvent where
  | construct (id : Nat) (realBall : Bool) (tgt : String)
  | setRealBall (id : Nat) (v : Bool)
  | setTarget (id : Nat) (s : String)
  | parryDebounce (id : Nat)
  | destroyBall (id : Nat)

def updateAt (f : Nat → Option BallC) (id : Nat) (c : BallC) : Nat → Option BallC :=
  fun n => if n = id then some c else f n

/-- The static-field update performed by `updateActive` (`part_001` lines
213-215): `if (this.active) BallComponent.active = this; else if
(BallComponent.active === this) BallComponent.active = undefined`. -/
def updateActiveStatic (w : BallWorld) (id : Nat) (v : Bool) : Option Nat :=
  if v then some id
  else if w.activeBall = some id then none
  else w.activeBall

def ballStep (w : BallWorld) : BallEvent → BallWorld
  | .construct id rb tgt =>
      match w.comps id with
      | some _ => w
      | none =>
          { comps := updateAt w.comps id ⟨rb, tgt, false, false⟩,
            activeBall := updateActiveStatic w id rb }
  | .setRealBall id v =>
      match w.comps id with
      | none => w
      | some c =>
          if c.destroyed = true then w
          else
            { comps := updateAt w.comps id { c with hit := false, active := v },
              activeBall := updateActiveStatic w id v }
  | .setTarget id s =>
      match w.comps id with
      | none => w
      | some c =>
          if c.destroyed = true then w
          else
            { comps := updateAt w.comps id { c with hit := false, target := s },
              activeBall := w.activeBall }
  | .parryDebounce id =>
      match w.comps id with
      | none => w
      | some c =>
          { comps := updateAt w.comps id { c with hit := true },
            activeBall := w.activeBall }
  | .destroyBall id =>
      match w.comps id with
      | none => w
      | some c =>
          if c.destroyed = true then w
          else
            { comps := updateAt w.comps id { c with destroyed := true },
              activeBall := if w.activeBall = some id then none else w.activeBall }

def ballInit : BallWorld := ⟨fun _ => none, none⟩

def ballRun (events : List BallEvent) : BallWorld :=
  events.foldl ballStep ballInit

/-- The claimed invariant: whenever the static `BallComponent.active` field
is defined, it references a constructed component that has not been
destroyed and whose `isActive()` returns true. -/
def BallInv (w : BallWorld) : Prop :=
  ∀ id, w.activeBall = some id →
    ∃ c, w.comps id = some c ∧ c.destroyed = false ∧ c.active = true

lemma updateAt_self (f : Nat → Option BallC) (id : Nat) (c : BallC) :
    updateAt f id c id = some c := by
  rw [updateAt]
  simp

lemma updateAt_other (f : Nat → Option BallC) (id : Nat) (c : BallC) (n : Nat)
    (h : n ≠ id) : updateAt f id c n = f n := by
  rw [updateAt]
  simp [h]

lemma ballStep_inv (w : BallWorld) (e : BallEvent) (hw : BallInv w) :
    BallInv (ballStep w e) := by
  cases e with
  | construct id rb tgt =>
      rcases hc : w.comps id with _ | c
      · intro n hn
        simp only [ballStep, hc] at hn ⊢
        cases rb with
        | true =>
            rw [show updateActiveStatic w id true = some id from rfl] at hn
            rw [← Option.some.inj hn, updateAt_self]
            exact ⟨⟨true, tgt, false, false⟩, rfl, rfl, rfl⟩
        | false =>
            rw [show updateActiveStatic w id false =
                (if w.activeBall = some id then none else w.activeBall) from rfl] at hn
            by_cases ha : w.activeBall = some id
            · rw [if_pos ha] at hn
              cases hn
            · rw [if_neg ha] at hn
              obtain ⟨c', hc', hd, hact⟩ := hw n hn
              have hne : n ≠ id := by
                intro h0
                rw [h0, hc] at hc'
                cases hc'
              exact ⟨c', by rw [updateAt_other _ _ _ _ hne]; exact hc', hd, hact⟩
      · intro n hn
        simp only [ballStep, hc] at hn ⊢
        exact hw n hn
  | setRealBall id v =>
      rcases hc : w.comps id with _ | c
      · intro n hn
        simp only [ballStep, hc] at hn ⊢
        exact hw n hn
      · by_cases hd : c.destroyed = true
        · intro n hn
          simp only [ballStep, hc, if_pos hd] at hn ⊢
          exact hw n hn
        · intro n hn
          simp only [ballStep, hc, if_neg hd] at hn ⊢
          cases v with
          | true =>
              rw [show updateActiveStatic w id true = some id from rfl] at hn
              rw [← Option.some.inj hn, updateAt_self]
              exact ⟨{ c with hit := false, active := true }, rfl,
                by simpa using Bool.not_eq_true c.destroyed |>.mp hd, rfl⟩
          | false =>
              rw [show updateActiveStatic w id false =
                  (if w.activeBall = some id then none else w.activeBall) from rfl] at hn
              by_cases ha : w.activeBall = some id
              · rw [if_pos ha] at hn
                cases hn
              · rw [if_neg ha] at hn
                obtain ⟨c', hc', hd', hact⟩ := hw n hn
                have hne : n ≠ id := by
                  intro h0
                  rw [h0] at hn
                  exact ha hn
                exact ⟨c', by rw [updateAt_other _ _ _ _ hne]; exact hc', hd', hact⟩
  | setTarget id s =>
      rcases hc : w.comps id with _ | c
      · intro n hn
        simp only [ballStep, hc] at hn ⊢
        exact hw n hn
      · by_cases hd : c.destroyed = true
        · intro n hn
          simp only [ballStep, hc, if_pos hd] at hn ⊢
          exact hw n hn
        · intro n hn
          simp only [ballStep, hc, if_neg hd] at hn ⊢
          obtain ⟨c', hc', hd', hact⟩ := hw n hn
          by_cases hne : n = id
          · subst hne
            rw [hc] at hc'
            rw [updateAt_self]
            refine ⟨{ c with hit := false, target := s }, rfl, ?_, ?_⟩
            · simpa using (Option.some.inj hc') ▸ hd'
            · simpa using (Option.some.inj hc') ▸ hact
          · exact ⟨c', by rw [updateAt_other _ _ _ _ hne]; exact hc', hd', hact⟩
  | parryDebounce id =>
      rcases hc : w.comps id with _ | c
      · intro n hn
        simp only [ballStep, hc] at hn ⊢
        exact hw n hn
      · intro n hn
        simp only [ballStep, hc] at hn ⊢
        obtain ⟨c', hc', hd', hact⟩ := hw n hn
        by_cases hne : n = id
        · subst hne
          rw [hc] at hc'
          rw [updateAt_self]
          refine ⟨{ c with hit := true }, rfl, ?_, ?_⟩
          · simpa using (Option.some.inj hc') ▸ hd'
          · simpa using (Option.some.inj hc') ▸ hact
        · exact ⟨c', by rw [updateAt_other _ _ _ _ hne]; exact hc', hd', hact⟩
  | destroyBall id =>
      rcases hc : w.comps id with _ | c
      · intro n hn
        simp only [ballStep, hc] at hn ⊢
        exact hw n hn
      · by_cases hd : c.destroyed = true
        · intro n hn
          simp only [ballStep, hc, if_pos hd] at hn ⊢
          exact hw n hn
        · intro n hn
          simp only [ballStep, hc, if_neg hd] at hn ⊢
          by_cases ha : w.activeBall = some id
          · rw [if_pos ha] at hn
            cases hn
          · rw [if_neg ha] at hn
            obtain ⟨c', hc', hd', hact⟩ := hw n hn
            have hne : n ≠ id := by
              intro h0
              rw [h0] at hn
              exact ha hn
            exact ⟨c', by rw [updateAt_other _ _ _ _ hne]; exact hc', hd', hact⟩

/-- Claim C10: in the second generation, at every state reachable by any
sequence of `BallComponent` operations, a defined `BallComponent.active`
references a component that has not been destroyed and whose `isActive()`
returns true. -/
theorem claimC10_active_ball_invariant (events : List BallEvent) :
    BallInv (ballRun events) := by
  rw [ballRun]
  have h : ∀ (evs : List BallEvent) (w : BallWorld), BallInv w →
      BallInv (evs.foldl ballStep w) := by
    intro evs
    induction evs with
    | nil => exact fun w hw => hw
    | cons e rest ih => exact fun w hw => ih _ (ballStep_inv w e hw)
  exact h events ballInit (fun n hn => by cases hn)

/-- Witness for C10: after constructing one ball with `realBall = true`, the
static field references it and the theorem yields its liveness. -/
theorem claimC10_active_ball_invariant_witness :
    ∃ c, (ballRun [BallEvent.construct 0 true "tgt"]).comps 0 = some c ∧
      c.destroyed = false ∧ c.active = true :=
  claimC10_active_ball_invariant [BallEvent.construct 0 true "tgt"] 0 rfl
